import Mathlib

/-!
Shallow embedding of the pulse-mcp API-client core (TTL cache, HTTP request
executors with retry/backoff/rate-limit handling, Jira cursor pagination,
input validators, and the parallel batch fetcher), together with theorems
settling the frozen claims about it.

Conventions used throughout:
* Wall-clock time (Python `time.time()`) is modelled as an integer `ℤ`
  supplied explicitly to each operation; monotonicity is a hypothesis
  where a claim needs it.
* HTTP response bodies are `List Char` so that truncation (`body[:1000]`)
  is ordinary `List.take`.
* Scripted servers: an executor consumes a `List` of responses, one per
  HTTP request it issues, exactly as the repository's unit tests script
  responses; a run that would need a response beyond the script returns
  `none` (never reached in the theorems below).
* `time.sleep` calls are recorded in a trace (a `List ℤ` of the slept
  durations) instead of actually sleeping.
-/

deriving instance DecidableEq for Except

namespace PulseMCP

/-! ## Python-dict model (association list, newest binding first) -/

/-- Insert-or-replace for a Python `dict`: any previous binding of `k` is
removed and the new one is placed in front. -/
def dictSet {κ α : Type} [DecidableEq κ] (m : List (κ × α)) (k : κ) (v : α) :
    List (κ × α) :=
  (k, v) :: m.filter (fun p => decide (p.1 ≠ k))

/-- Lookup in the association-list dict model. -/
def dictGet {κ α : Type} [DecidableEq κ] (m : List (κ × α)) (k : κ) : Option α :=
  match m with
  | [] => none
  | p :: rest => if p.1 = k then some p.2 else dictGet rest k

/-- Deletion (`del d[k]`) in the dict model. -/
def dictDel {κ α : Type} [DecidableEq κ] (m : List (κ × α)) (k : κ) : List (κ × α) :=
  m.filter (fun p => decide (p.1 ≠ k))

/-! ## TTLCache (work_tracker/clients/github_client.py, class TTLCache) -/

/-- CACHE_CLEANUP_INTERVAL from the source: every 100th write sweeps
expired entries. -/
def CACHE_CLEANUP_INTERVAL : ℕ := 100

/-- State of `TTLCache`: `cache` maps a key to `(timestamp, value)`,
`ttl` is `_ttl`, `write_count` is `_write_count`, and `hits`/`misses`
are the observability counters. -/
structure TTLCache (α : Type) where
  cache : List (String × (ℤ × α))
  ttl : ℤ
  write_count : ℕ
  hits : ℕ
  misses : ℕ

/-- TTLCache.get: return the value when `now - timestamp < ttl`
(counting a hit); an expired entry is deleted immediately and, like an
absent key, counts as a miss. -/
def TTLCache.get {α : Type} (c : TTLCache α) (key : String) (now : ℤ) :
    Option α × TTLCache α :=
  match dictGet c.cache key with
  | some tv =>
    if now - tv.1 < c.ttl then
      (some tv.2, TTLCache.mk c.cache c.ttl c.write_count (c.hits + 1) c.misses)
    else
      (none, TTLCache.mk (dictDel c.cache key) c.ttl c.write_count c.hits (c.misses + 1))
  | none => (none, TTLCache.mk c.cache c.ttl c.write_count c.hits (c.misses + 1))

/-- Sweep used by `_cleanup_expired_unlocked`: keep exactly the entries
with `now - timestamp < ttl`. -/
def cleanupExpired {α : Type} (l : List (String × (ℤ × α))) (now ttl : ℤ) :
    List (String × (ℤ × α)) :=
  l.filter (fun e => decide (now - e.2.1 < ttl))

/-- TTLCache.set: store `(now, value)`, bump the write counter, and on
every `CACHE_CLEANUP_INTERVAL`-th write sweep expired entries and reset
the counter. -/
def TTLCache.set {α : Type} (c : TTLCache α) (key : String) (v : α) (now : ℤ) :
    TTLCache α :=
  let cache := dictSet c.cache key (now, v)
  let wc := c.write_count + 1
  if CACHE_CLEANUP_INTERVAL ≤ wc then
    TTLCache.mk (cleanupExpired cache now c.ttl) c.ttl 0 c.hits c.misses
  else
    TTLCache.mk cache c.ttl wc c.hits c.misses

/-- Python `round` (banker's rounding, round-half-to-even) on an exact
rational, computed on the numerator and denominator: `q.num / q.den` is
`⌊q⌋` (`Rat.floor_def`), `r` the remainder, and the fractional part
`r / q.den` is compared with `1/2` by comparing `2 * r` with `q.den`.
The source applies Python's `round` to a float, which this embedding
models by the exact rational value. -/
def pyRound (q : ℚ) : ℤ :=
  let f := q.num / (q.den : ℤ)
  let r := q.num - f * (q.den : ℤ)
  if 2 * r < (q.den : ℤ) then f
  else if (q.den : ℤ) < 2 * r then f + 1
  else if f % 2 = 0 then f else f + 1

/-- Python `round(x, 1)`: round to one decimal place. -/
def pyRound1 (q : ℚ) : ℚ := (pyRound (q * 10) : ℚ) / 10

/-- Value of the `hit_rate` field computed by `TTLCache.get_stats`:
`round(hits / (hits + misses) * 100, 1)` when any lookup happened,
otherwise `0`. -/
def hitRate (hits misses : ℕ) : ℚ :=
  if 0 < hits + misses then pyRound1 ((hits : ℚ) / ((hits : ℚ) + (misses : ℚ)) * 100)
  else 0

/-- Record returned by `TTLCache.get_stats`. -/
structure CacheStats where
  size : ℕ
  hits : ℕ
  misses : ℕ
  hit_rate : ℚ
deriving DecidableEq

/-- TTLCache.get_stats from the source. -/
def TTLCache.get_stats {α : Type} (c : TTLCache α) : CacheStats :=
  CacheStats.mk c.cache.length c.hits c.misses (hitRate c.hits c.misses)

/-- Cache-consulting prologue of `GitHubClient._request` for a cached GET
(lines 296-302 and 341-342 of the source): on a cache hit return the
cached value without touching the network; on a miss fetch (modelled by
the `fetched` argument), report that the network was hit, and store the
response. Result: `(returned value, network was hit, new cache state)`. -/
def cached_request {α : Type} (c : TTLCache α) (key : String) (now : ℤ)
    (fetched : α) : α × Bool × TTLCache α :=
  let g := TTLCache.get c key now
  match g.1 with
  | some v => (v, false, g.2)
  | none => (fetched, true, TTLCache.set g.2 key fetched now)

/-! ## HTTP request executors -/

/-- MAX_RETRIES: the fixed retry budget shared by all clients. -/
def MAX_RETRIES : ℕ := 3

/-- RETRY_DELAY: the 1-second exponential-backoff base. -/
def RETRY_DELAY : ℤ := 1

/-- One scripted GitHub response. `remaining` models the
`X-RateLimit-Remaining` header (`none` = absent, which
`headers.get(…, "0")` defaults to `"0"`); `reset` models the parsed
`X-RateLimit-Reset` header (`none` = absent or non-integer, which the
source turns into `0`); `json` is the parsed body (`none` =
`json.JSONDecodeError`). -/
structure GHResponse (α : Type) where
  status : ℕ
  remaining : Option String
  reset : Option ℤ
  body : List Char
  json : Option α
deriving DecidableEq

/-- Outcome of a request executor run. `httpError status snippet` models
`requests.exceptions.HTTPError(f"{status} Error for {url}: {body[:1000]}")`;
`invalidJson snippet` models the distinct
`requests.exceptions.RequestException(f"Invalid JSON response from {url}: {body[:200]}")`;
`exhausted` models `RequestException(f"Failed after {MAX_RETRIES} retries")`,
raised when the attempt loop falls off its end. -/
inductive ReqOutcome (α : Type) where
  | ok : α → ReqOutcome α
  | httpError : ℕ → List Char → ReqOutcome α
  | invalidJson : List Char → ReqOutcome α
  | exhausted : ReqOutcome α
deriving DecidableEq

/-- Attempt loop of `GitHubClient._request` (work_tracker). `clock i` is
the value of `time.time()` during attempt `i`. Returns the outcome, the
number of HTTP requests issued, and the trace of `time.sleep` durations.
A raised `HTTPError` or invalid-JSON `RequestException` is caught by the
trailing `except requests.exceptions.RequestException` handler (both are
subclasses), which backs off and retries on every attempt but the last. -/
def ghLoop {α : Type} (clock : ℕ → ℤ) :
    (attempt : ℕ) → (resps : List (GHResponse α)) → (calls : ℕ) →
    (sleeps : List ℤ) → Option (ReqOutcome α × ℕ × List ℤ)
  | attempt, resps, calls, sleeps =>
    if MAX_RETRIES ≤ attempt then some (ReqOutcome.exhausted, calls, sleeps)
    else
      match resps with
      | [] => none
      | r :: rest =>
        if r.status = 403 ∧ r.remaining.getD "0" = "0" then
          ghLoop clock (attempt + 1) rest (calls + 1)
            (sleeps ++ [min (max (r.reset.getD 0 - clock attempt) 1) 60])
        else if 500 ≤ r.status ∧ attempt < MAX_RETRIES - 1 then
          ghLoop clock (attempt + 1) rest (calls + 1)
            (sleeps ++ [RETRY_DELAY * 2 ^ attempt])
        else if 400 ≤ r.status then
          if attempt < MAX_RETRIES - 1 then
            ghLoop clock (attempt + 1) rest (calls + 1)
              (sleeps ++ [RETRY_DELAY * 2 ^ attempt])
          else
            some (ReqOutcome.httpError r.status (r.body.take 1000), calls + 1, sleeps)
        else
          match r.json with
          | some d => some (ReqOutcome.ok d, calls + 1, sleeps)
          | none =>
            if attempt < MAX_RETRIES - 1 then
              ghLoop clock (attempt + 1) rest (calls + 1)
                (sleeps ++ [RETRY_DELAY * 2 ^ attempt])
            else
              some (ReqOutcome.invalidJson (r.body.take 200), calls + 1, sleeps)

/-- GitHubClient._request run against a scripted response list. -/
def gh_request {α : Type} (clock : ℕ → ℤ) (resps : List (GHResponse α)) :
    Option (ReqOutcome α × ℕ × List ℤ) :=
  ghLoop clock 0 resps 0 []

/-- One scripted Jira/Confluence response. `retryAfter` models the parsed
`Retry-After` header: `none` stands for a header that is absent or fails
`int(...)`, both of which the source replaces by `int(RETRY_DELAY) = 1`. -/
structure AtlResponse (α : Type) where
  status : ℕ
  retryAfter : Option ℤ
  body : List Char
  json : Option α
deriving DecidableEq

/-- Wait used on a 429: the parsed `Retry-After`, defaulting to the
1-second backoff base when the header is absent or malformed. -/
def retryAfterWait {α : Type} (r : AtlResponse α) : ℤ :=
  r.retryAfter.getD RETRY_DELAY

/-- Attempt loop of `JiraClient._request`: a 429 sleeps `Retry-After` and
retries only while `attempt < MAX_RETRIES - 1`; on the final attempt it
falls through to the generic `>= 400` handling. -/
def jiraLoop {α : Type} :
    (attempt : ℕ) → (resps : List (AtlResponse α)) → (calls : ℕ) →
    (sleeps : List ℤ) → Option (ReqOutcome α × ℕ × List ℤ)
  | attempt, resps, calls, sleeps =>
    if MAX_RETRIES ≤ attempt then some (ReqOutcome.exhausted, calls, sleeps)
    else
      match resps with
      | [] => none
      | r :: rest =>
        if r.status = 429 ∧ attempt < MAX_RETRIES - 1 then
          jiraLoop (attempt + 1) rest (calls + 1) (sleeps ++ [retryAfterWait r])
        else if 500 ≤ r.status ∧ attempt < MAX_RETRIES - 1 then
          jiraLoop (attempt + 1) rest (calls + 1) (sleeps ++ [RETRY_DELAY * 2 ^ attempt])
        else if 400 ≤ r.status then
          if attempt < MAX_RETRIES - 1 then
            jiraLoop (attempt + 1) rest (calls + 1) (sleeps ++ [RETRY_DELAY * 2 ^ attempt])
          else
            some (ReqOutcome.httpError r.status (r.body.take 1000), calls + 1, sleeps)
        else
          match r.json with
          | some d => some (ReqOutcome.ok d, calls + 1, sleeps)
          | none =>
            if attempt < MAX_RETRIES - 1 then
              jiraLoop (attempt + 1) rest (calls + 1) (sleeps ++ [RETRY_DELAY * 2 ^ attempt])
            else
              some (ReqOutcome.invalidJson (r.body.take 200), calls + 1, sleeps)

/-- JiraClient._request run against a scripted response list. -/
def jira_request {α : Type} (resps : List (AtlResponse α)) :
    Option (ReqOutcome α × ℕ × List ℤ) :=
  jiraLoop 0 resps 0 []

/-- Attempt loop of `ConfluenceClient._request`: identical to the Jira
one except that its 429 branch has no attempt guard, so a 429 sleeps and
retries on every attempt, including the last. -/
def confluenceLoop {α : Type} :
    (attempt : ℕ) → (resps : List (AtlResponse α)) → (calls : ℕ) →
    (sleeps : List ℤ) → Option (ReqOutcome α × ℕ × List ℤ)
  | attempt, resps, calls, sleeps =>
    if MAX_RETRIES ≤ attempt then some (ReqOutcome.exhausted, calls, sleeps)
    else
      match resps with
      | [] => none
      | r :: rest =>
        if r.status = 429 then
          confluenceLoop (attempt + 1) rest (calls + 1) (sleeps ++ [retryAfterWait r])
        else if 500 ≤ r.status ∧ attempt < MAX_RETRIES - 1 then
          confluenceLoop (attempt + 1) rest (calls + 1) (sleeps ++ [RETRY_DELAY * 2 ^ attempt])
        else if 400 ≤ r.status then
          if attempt < MAX_RETRIES - 1 then
            confluenceLoop (attempt + 1) rest (calls + 1) (sleeps ++ [RETRY_DELAY * 2 ^ attempt])
          else
            some (ReqOutcome.httpError r.status (r.body.take 1000), calls + 1, sleeps)
        else
          match r.json with
          | some d => some (ReqOutcome.ok d, calls + 1, sleeps)
          | none =>
            if attempt < MAX_RETRIES - 1 then
              confluenceLoop (attempt + 1) rest (calls + 1) (sleeps ++ [RETRY_DELAY * 2 ^ attempt])
            else
              some (ReqOutcome.invalidJson (r.body.take 200), calls + 1, sleeps)

/-- ConfluenceClient._request run against a scripted response list. -/
def confluence_request {α : Type} (resps : List (AtlResponse α)) :
    Option (ReqOutcome α × ℕ × List ℤ) :=
  confluenceLoop 0 resps 0 []

/-! ## Jira cursor pagination (JiraClient.search_issues / _paginate_search) -/

/-- One page returned by `POST /rest/api/3/search/jql`: the raw issue
items, the `isLast` flag (an absent field defaults to `True` in the
source), and the optional `nextPageToken`. -/
structure JiraPage (α : Type) where
  issues : List α
  isLast : Bool
  nextPageToken : Option String
deriving DecidableEq

/-- Truthiness cap check of `search_issues`:
`if max_results and len(issues) >= max_results: break`. A cap of `None`
or `0` is falsy and never stops the loop. -/
def capReached (cap : Option ℕ) (n : ℕ) : Bool :=
  match cap with
  | none => false
  | some m => decide (m ≠ 0) && decide (m ≤ n)

/-- Consumption of one page's items by the `search_issues` loop driving
the `_paginate_search` generator: each raw item is parsed (a parse
failure is logged and skipped), appended, and the cap is checked after
every append. Returns the accumulated issues and whether the cap broke
the loop (in which case the generator is abandoned and no further POST
happens). -/
def consumePage {α β : Type} (parse : α → Option β) (cap : Option ℕ) :
    (acc : List β) → List α → List β × Bool
  | acc, [] => (acc, false)
  | acc, raw :: rest =>
    match parse raw with
    | none => consumePage parse cap acc rest
    | some b =>
      if capReached cap (acc ++ [b]).length then (acc ++ [b], true)
      else consumePage parse cap (acc ++ [b]) rest

/-- Page loop of `_paginate_search` as driven by `search_issues`: POST
(consuming the next scripted page), yield its items through
`consumePage`, and continue only when the cap did not break, `isLast` is
false, and a truthy (`≠ ""`) `nextPageToken` is present. Returns the
issues together with the number of POSTs issued. -/
def searchLoop {α β : Type} (parse : α → Option β) (cap : Option ℕ) :
    List (JiraPage α) → List β → ℕ → Option (List β × ℕ)
  | [], _, _ => none
  | p :: rest, acc, posts =>
    match consumePage parse cap acc p.issues with
    | (acc1, true) => some (acc1, posts + 1)
    | (acc1, false) =>
      if p.isLast then some (acc1, posts + 1)
      else
        match p.nextPageToken with
        | none => some (acc1, posts + 1)
        | some t =>
          if t = "" then some (acc1, posts + 1)
          else searchLoop parse cap rest acc1 (posts + 1)

/-- JiraClient.search_issues run against a scripted page list:
`cap` is the caller's `max_results` (`none` = Python `None`). -/
def search_issues {α β : Type} (parse : α → Option β)
    (pages : List (JiraPage α)) (cap : Option ℕ) : Option (List β × ℕ) :=
  searchLoop parse cap pages [] 0

/-- Cap applied to a fully-concatenated result list (for stating what a
capped search returns). -/
def truncCap {β : Type} (cap : Option ℕ) (l : List β) : List β :=
  match cap with
  | none => l
  | some m => l.take m

/-! ## Input validators (jira_client.py and work_tracker/config.py) -/

/-- Uppercase-ASCII-letter class `[A-Z]` of the key patterns. -/
def isUpperAZ (c : Char) : Bool := decide ('A' ≤ c ∧ c ≤ 'Z')

/-- ASCII-digit class: `[0-9]`, and `\d` restricted to the ASCII digits
(all strings the claims quantify over are ASCII). -/
def isDigit09 (c : Char) : Bool := decide ('0' ≤ c ∧ c ≤ '9')

/-- Character class `[A-Z0-9]`. -/
def isUpperOrDigit (c : Char) : Bool := isUpperAZ c || isDigit09 c

/-- Scanner for the part of `ISSUE_KEY_PATTERN` after its first
character: one or more `[A-Z0-9]` (tracked by `saw`), then `-`, then one
or more digits running to the end of the string. Because neither
character class contains `-`, this is exactly the language of
`[A-Z0-9]+-\d+$`. -/
def issueTail : Bool → List Char → Bool
  | _, [] => false
  | saw, c :: rest =>
    if c = '-' then saw && !rest.isEmpty && rest.all isDigit09
    else if isUpperOrDigit c then issueTail true rest
    else false

/-- Full-string match of `ISSUE_KEY_PATTERN = ^[A-Z][A-Z0-9]+-\d+$` on a
newline-free ASCII string. -/
def issue_key_matches (s : String) : Bool :=
  match s.toList with
  | [] => false
  | c :: rest => isUpperAZ c && issueTail false rest

/-- _validate_issue_key: raise `ValueError` (modelled as `Except.error`)
unless the key matches `ISSUE_KEY_PATTERN`. -/
def validate_issue_key (key : String) : Except String Unit :=
  if issue_key_matches key then Except.ok ()
  else Except.error ("Invalid Jira issue key format: " ++ key)

/-- Full-string match of `PROJECT_KEY_PATTERN = ^[A-Z][A-Z0-9]*$` on a
newline-free ASCII string. -/
def project_key_matches (s : String) : Bool :=
  match s.toList with
  | [] => false
  | c :: rest => isUpperAZ c && rest.all isUpperOrDigit

/-- _validate_project_key from work_tracker/config.py. -/
def validate_project_key (key : String) : Bool := project_key_matches key

/-- JQL built by `JiraClient.get_epic_children` once its argument passed
validation. -/
def build_epic_children_jql (key : String) : String :=
  "\"Epic Link\" = \"" ++ key ++ "\" OR parent = \"" ++ key ++ "\" ORDER BY rank"

/-- JiraClient.get_epic_children: validate the caller-supplied key
first; only on success is the JQL string built and the (scripted)
search executed. The returned pair exposes the query string that was
interpolated and the search result. -/
def get_epic_children {α β : Type} (parse : α → Option β)
    (pages : List (JiraPage α)) (key : String) :
    Except String (String × Option (List β × ℕ)) :=
  match validate_issue_key key with
  | Except.error e => Except.error e
  | Except.ok _ => Except.ok (build_epic_children_jql key, search_issues parse pages none)

/-! ## Batch fetcher (GitHubClient.get_pr_stats_batch) -/

/-- PullRequest record (models.py), with datetimes abstracted to integer
timestamps. -/
structure PullRequest where
  number : ℕ
  title : String
  repo : String
  state : String
  merged : Bool
  additions : ℕ
  deletions : ℕ
  url : String
  created_at : Option ℤ
  merged_at : Option ℤ
deriving DecidableEq

/-- Stats dict returned by `get_pr_stats`. -/
structure PRStats where
  additions : ℕ
  deletions : ℕ
deriving DecidableEq

/-- Batch key: `(pr.repo, pr.number)`. -/
def prKey (pr : PullRequest) : String × ℕ := (pr.repo, pr.number)

/-- GitHubClient.get_pr_stats_batch: every PR is submitted to the pool;
`fetch pr = none` models a per-item fetch that raised (or a
`future.result(timeout=60)` failure), which is logged and dropped, while
a successful item is written into the results dict. `order` is the
completion order of the futures (`as_completed` gives no ordering
guarantee), which the main theorem quantifies over as any permutation of
the submitted list. `batchStep` is the body of the collection loop: one
completed future's `(key, stats)` result is written into the results
dict when `stats is not None`, and dropped otherwise. -/
def batchStep (fetch : PullRequest → Option PRStats)
    (results : List ((String × ℕ) × PRStats)) (pr : PullRequest) :
    List ((String × ℕ) × PRStats) :=
  match fetch pr with
  | some stats => dictSet results (prKey pr) stats
  | none => results

/-- GitHubClient.get_pr_stats_batch: the futures are collected in
completion order `order` into an initially empty results dict. -/
def get_pr_stats_batch (order : List PullRequest)
    (fetch : PullRequest → Option PRStats) : List ((String × ℕ) × PRStats) :=
  order.foldl (batchStep fetch) []

/-! ## Supporting lemmas about the dict model -/

theorem dictGet_dictSet_self {κ α : Type} [DecidableEq κ] (m : List (κ × α))
    (k : κ) (v : α) : dictGet (dictSet m k v) k = some v := by
  simp [dictSet, dictGet]

theorem dictGet_mem {κ α : Type} [DecidableEq κ] {m : List (κ × α)} {k : κ}
    {v : α} (h : dictGet m k = some v) : (k, v) ∈ m := by
  induction m with
  | nil => simp [dictGet] at h
  | cons e rest ih =>
    rw [dictGet] at h
    by_cases hk : e.1 = k
    · rw [if_pos hk] at h
      have he : e = (k, v) := by
        cases e
        simp_all

      rw [← he]
      exact List.mem_cons_self _ _
    · rw [if_neg hk] at h
      exact List.mem_cons_of_mem _ (ih h)

theorem dictGet_filter_none {κ α : Type} [DecidableEq κ] (m : List (κ × α))
    (k : κ) (p : κ × α → Bool) (h : ∀ e ∈ m, e.1 = k → p e = false) :
    dictGet (m.filter p) k = none := by
  induction m with
  | nil => simp [dictGet]
  | cons e rest ih =>
    have hrest : ∀ e2 ∈ rest, e2.1 = k → p e2 = false :=
      fun e2 he2 => h e2 (List.mem_cons_of_mem _ he2)
    by_cases hp : p e
    · rw [List.filter_cons_of_pos hp, dictGet]
      have hek : e.1 ≠ k := by
        intro hek
        rw [h e (List.mem_cons_self e rest) hek] at hp
        exact Bool.false_ne_true hp
      rw [if_neg hek]
      exact ih hrest
    · rw [List.filter_cons_of_neg (by simpa using hp)]
      exact ih hrest

/-- Entries of `dictSet m k v` whose key is `k` are exactly the new one. -/
theorem mem_dictSet_key {κ α : Type} [DecidableEq κ] {m : List (κ × α)}
    {k : κ} {v : α} {e : κ × α} (he : e ∈ dictSet m k v) (hk : e.1 = k) :
    e = (k, v) := by
  cases he with
  | head => rfl
  | tail _ hmem =>
    rcases List.mem_filter.1 hmem with ⟨_, hne⟩
    simp only [decide_eq_true_eq] at hne
    exact absurd hk hne

/-! ## Supporting lemmas about the TTL-zero cache -/

/-- After a `set`, a `get` of the same key under a zero TTL misses: the
freshness test `now - timestamp < ttl` is strict, and the periodic sweep
(when it fires on the write) removes the entry outright. -/
theorem ttl_zero_get_after_set {α : Type} (c : TTLCache α) (key : String)
    (v : α) (now nowLater : ℤ) (h0 : c.ttl = 0) (hmono : now ≤ nowLater) :
    (TTLCache.get (TTLCache.set c key v now) key nowLater).1 = none := by
  rw [TTLCache.set]
  by_cases hwc : CACHE_CLEANUP_INTERVAL ≤ c.write_count + 1
  · rw [if_pos hwc]
    have hget : dictGet (cleanupExpired (dictSet c.cache key (now, v)) now c.ttl) key = none := by
      apply dictGet_filter_none
      intro e he hk
      have he2 := mem_dictSet_key he hk
      subst he2
      simp only [decide_eq_false_iff_not, not_lt, h0]
      omega
    simp only [TTLCache.get, hget]
  · rw [if_neg hwc]
    simp only [TTLCache.get, dictGet_dictSet_self]
    rw [if_neg (by simp only [h0]; omega)]

/-- Under a zero TTL any `get` misses, provided no cached timestamp lies
in the future (true of every state the client can reach). -/
theorem ttl_zero_get_none {α : Type} (c : TTLCache α) (key : String)
    (now : ℤ) (h0 : c.ttl = 0) (hts : ∀ e ∈ c.cache, e.2.1 ≤ now) :
    (TTLCache.get c key now).1 = none := by
  cases hget : dictGet c.cache key with
  | none => simp only [TTLCache.get, hget]
  | some tv =>
    have hmem := dictGet_mem hget
    have hle : tv.1 ≤ now := hts (key, tv) hmem
    simp only [TTLCache.get, hget]
    rw [if_neg (by simp only [h0]; omega)]

/-- `get` never changes the configured TTL. -/
theorem get_preserves_ttl {α : Type} (c : TTLCache α) (key : String)
    (now : ℤ) : (TTLCache.get c key now).2.ttl = c.ttl := by
  cases hget : dictGet c.cache key with
  | none => simp only [TTLCache.get, hget]
  | some tv =>
    simp only [TTLCache.get, hget]
    split <;> rfl

/-! ## Supporting lemmas about the rounding model -/

/-- Core accuracy bound for the integer formulation of banker's
rounding: the chosen integer is within `1/2` of the rational when
`(n : ℚ) = q * d` and `d > 0`. -/
theorem abs_pyRoundCore_sub_le (n d : ℤ) (q : ℚ) (hd : 0 < d)
    (hq : (n : ℚ) = q * (d : ℚ)) :
    |((if 2 * (n - n / d * d) < d then n / d
       else if d < 2 * (n - n / d * d) then n / d + 1
       else if n / d % 2 = 0 then n / d else n / d + 1 : ℤ) : ℚ) - q| ≤ 1 / 2 := by
  have hdq : (0 : ℚ) < (d : ℚ) := by exact_mod_cast hd
  set f : ℤ := n / d with hfdef
  set r : ℤ := n - f * d with hrdef
  have hr0 : 0 ≤ r := by
    rw [hrdef, hfdef]
    have := Int.emod_nonneg n (ne_of_gt hd)
    rw [Int.emod_def] at this
    linarith
  have hrd : r < d := by
    rw [hrdef, hfdef]
    have := Int.emod_lt_of_pos n hd
    rw [Int.emod_def] at this
    linarith
  have hrq : (r : ℚ) = (q - (f : ℚ)) * (d : ℚ) := by
    rw [hrdef]
    push_cast
    rw [hq]
    ring
  have hdiv : (r : ℚ) / (d : ℚ) = q - (f : ℚ) := by
    rw [hrq]
    field_simp
  have hs0 : (0 : ℚ) ≤ (r : ℚ) / (d : ℚ) :=
    div_nonneg (by exact_mod_cast hr0) hdq.le
  have hs1 : (r : ℚ) / (d : ℚ) < 1 :=
    (div_lt_one hdq).2 (by exact_mod_cast hrd)
  split_ifs with h1 h2 h3
  · have h1q : 2 * (r : ℚ) < (d : ℚ) := by exact_mod_cast h1
    have hs : (r : ℚ) / (d : ℚ) < 1 / 2 := by
      rw [div_lt_iff₀ hdq]
      linarith
    have heq : ((f : ℤ) : ℚ) - q = -((r : ℚ) / (d : ℚ)) := by
      linarith [hdiv]
    rw [heq, abs_neg, abs_of_nonneg hs0]
    linarith
  · have h2q : (d : ℚ) < 2 * (r : ℚ) := by exact_mod_cast h2
    have hs : 1 / 2 < (r : ℚ) / (d : ℚ) := by
      rw [lt_div_iff₀ hdq]
      linarith
    have heq : ((f + 1 : ℤ) : ℚ) - q = 1 - (r : ℚ) / (d : ℚ) := by
      push_cast
      linarith [hdiv]
    rw [heq, abs_of_nonneg (by linarith)]
    linarith
  · have h2q : 2 * (r : ℚ) = (d : ℚ) := by
      exact_mod_cast le_antisymm (not_lt.1 h2) (not_lt.1 h1)
    have hs : (r : ℚ) / (d : ℚ) = 1 / 2 := by
      rw [div_eq_iff (ne_of_gt hdq)]
      linarith
    have heq : ((f : ℤ) : ℚ) - q = -((r : ℚ) / (d : ℚ)) := by
      linarith [hdiv]
    rw [heq, abs_neg, abs_of_nonneg hs0, hs]
  · have h2q : 2 * (r : ℚ) = (d : ℚ) := by
      exact_mod_cast le_antisymm (not_lt.1 h2) (not_lt.1 h1)
    have hs : (r : ℚ) / (d : ℚ) = 1 / 2 := by
      rw [div_eq_iff (ne_of_gt hdq)]
      linarith
    have heq : ((f + 1 : ℤ) : ℚ) - q = 1 - (r : ℚ) / (d : ℚ) := by
      push_cast
      linarith [hdiv]
    rw [heq, abs_of_nonneg (by linarith), hs]
    norm_num

theorem abs_pyRound_sub_le (q : ℚ) : |(pyRound q : ℚ) - q| ≤ 1 / 2 := by
  have hd : (0 : ℤ) < (q.den : ℤ) := by exact_mod_cast q.den_pos
  have hden : ((q.den : ℤ) : ℚ) ≠ 0 := by
    push_cast
    exact_mod_cast q.den_ne_zero
  have hq : (q.num : ℚ) = q * ((q.den : ℤ) : ℚ) := by
    push_cast
    calc (q.num : ℚ) = (q.num : ℚ) / (q.den : ℚ) * (q.den : ℚ) := by
          field_simp
      _ = q * (q.den : ℚ) := by rw [Rat.num_div_den]
  exact abs_pyRoundCore_sub_le q.num (q.den : ℤ) q hd hq

theorem abs_pyRound1_sub_le (q : ℚ) : |pyRound1 q - q| ≤ 1 / 20 := by
  have h := abs_pyRound_sub_le (q * 10)
  rw [pyRound1]
  have heq : (pyRound (q * 10) : ℚ) / 10 - q = ((pyRound (q * 10) : ℚ) - q * 10) / 10 := by
    ring
  rw [heq, abs_div, abs_of_pos (show (0 : ℚ) < 10 by norm_num)]
  linarith

/-! ## Claim theorems -/

/-- C6: with a TTL of 0, caching is fully disabled. First conjunct: for
every cache state and key, a `TTLCache.get` of a key returns absent even
immediately after (or any time after) a `TTLCache.set` of that key.
Second conjunct: two consecutive identical cached GET requests both
reach the network (given that no cached timestamp lies in the future of
the first request). -/
theorem ttl_zero_disables_cache :
    (∀ (α : Type) (c : TTLCache α) (key : String) (v : α) (now nowLater : ℤ),
        c.ttl = 0 → now ≤ nowLater →
        (TTLCache.get (TTLCache.set c key v now) key nowLater).1 = none)
    ∧ (∀ (α : Type) (c : TTLCache α) (key : String) (d1 d2 : α) (now nowLater : ℤ),
        c.ttl = 0 → now ≤ nowLater → (∀ e ∈ c.cache, e.2.1 ≤ now) →
        (cached_request c key now d1).2.1 = true ∧
        (cached_request (cached_request c key now d1).2.2 key nowLater d2).2.1 = true) := by
  constructor
  · exact fun α c key v now nowLater h0 hm =>
      ttl_zero_get_after_set c key v now nowLater h0 hm
  · intro α c key d1 d2 now nowLater h0 hm hts
    have h1 : (TTLCache.get c key now).1 = none := ttl_zero_get_none c key now h0 hts
    refine ⟨by simp only [cached_request, h1], ?_⟩
    have hc2 : (cached_request c key now d1).2.2 =
        TTLCache.set (TTLCache.get c key now).2 key d1 now := by
      simp only [cached_request, h1]
    rw [hc2]
    have h0b : (TTLCache.get c key now).2.ttl = 0 := by
      rw [get_preserves_ttl]
      exact h0
    have h2 := ttl_zero_get_after_set (TTLCache.get c key now).2 key d1 now nowLater h0b hm
    simp only [cached_request, h2]

/-- Witness for C6: the theorem applied to an empty zero-TTL cache. -/
theorem ttl_zero_disables_cache_witness :
    (TTLCache.get (TTLCache.set (TTLCache.mk ([] : List (String × (ℤ × ℕ))) 0 0 0 0) "k" 7 0) "k" 0).1 = none ∧
    (cached_request (TTLCache.mk ([] : List (String × (ℤ × ℕ))) 0 0 0 0) "k" 0 7).2.1 = true :=
  ⟨ttl_zero_disables_cache.1 ℕ (TTLCache.mk [] 0 0 0 0) "k" 7 0 0 rfl (by decide),
   (ttl_zero_disables_cache.2 ℕ (TTLCache.mk [] 0 0 0 0) "k" 7 7 0 0 rfl (by decide)
      (by simp)).1⟩

/-- C7 counterexample: `get_stats` on a cache with one hit and one miss
reports a `hit_rate` of `50` (the percentage rounded to one decimal),
which is not the ratio `hits / (hits + misses) = 1 / 2` the claim
states. -/
theorem hit_rate_ratio_counterexample :
    TTLCache.get_stats (TTLCache.mk ([] : List (String × (ℤ × ℕ))) 300 0 1 1) =
      CacheStats.mk 0 1 1 50 ∧
    (50 : ℚ) ≠ (1 : ℚ) / ((1 : ℚ) + (1 : ℚ)) := by
  constructor
  · simp only [TTLCache.get_stats, List.length_nil]
    norm_num [hitRate, pyRound1, pyRound]
  · norm_num

/-- C7 (amended): `get_stats` reports `hit_rate` as the percentage
`round(hits / (hits + misses) * 100, 1)` — never dividing by zero: it is
`0` when no lookups happened, and otherwise lies within `1/20` (the
one-decimal rounding error) of `hits / (hits + misses) * 100`. -/
theorem hit_rate_percentage_of_lookups (α : Type) (c : TTLCache α) :
    (c.hits + c.misses = 0 → (TTLCache.get_stats c).hit_rate = 0) ∧
    (0 < c.hits + c.misses →
      |(TTLCache.get_stats c).hit_rate -
        (c.hits : ℚ) / ((c.hits : ℚ) + (c.misses : ℚ)) * 100| ≤ 1 / 20) := by
  constructor
  · intro h0
    simp only [TTLCache.get_stats, hitRate]
    rw [if_neg (by omega)]
  · intro hpos
    simp only [TTLCache.get_stats, hitRate]
    rw [if_pos hpos]
    exact abs_pyRound1_sub_le _

/-- Witness for C7: the zero case and the one-hit-one-miss case. -/
theorem hit_rate_percentage_of_lookups_witness :
    (TTLCache.get_stats (TTLCache.mk ([] : List (String × (ℤ × ℕ))) 300 0 0 0)).hit_rate = 0 ∧
    |(TTLCache.get_stats (TTLCache.mk ([] : List (String × (ℤ × ℕ))) 300 0 1 1)).hit_rate -
      (1 : ℚ) / ((1 : ℚ) + (1 : ℚ)) * 100| ≤ 1 / 20 :=
  ⟨(hit_rate_percentage_of_lookups ℕ (TTLCache.mk [] 300 0 0 0)).1 rfl,
   (hit_rate_percentage_of_lookups ℕ (TTLCache.mk [] 300 0 1 1)).2 (by decide)⟩

/-! ## Supporting lemmas about pagination -/

theorem consumePage_zero_cap {α β : Type} (parse : α → Option β) :
    ∀ (raws : List α) (acc : List β),
      consumePage parse (some 0) acc raws = consumePage parse none acc raws := by
  intro raws
  induction raws with
  | nil => intro acc; rfl
  | cons raw rest ih =>
    intro acc
    rw [consumePage, consumePage]
    cases hp : parse raw with
    | none =>
      exact ih acc
    | some b =>
      simp only [capReached]
      norm_num
      exact ih (acc ++ [b])

theorem searchLoop_zero_cap {α β : Type} (parse : α → Option β) :
    ∀ (pages : List (JiraPage α)) (acc : List β) (posts : ℕ),
      searchLoop parse (some 0) pages acc posts =
      searchLoop parse none pages acc posts := by
  intro pages
  induction pages with
  | nil => intro acc posts; rfl
  | cons p rest ih =>
    intro acc posts
    rw [searchLoop, searchLoop, consumePage_zero_cap]
    cases hc : consumePage parse none acc p.issues with
    | mk acc1 capped =>
      cases capped with
      | true => rfl
      | false =>
        dsimp only
        by_cases hLast : p.isLast
        · rw [if_pos hLast, if_pos hLast]
        · rw [if_neg hLast, if_neg hLast]
          cases p.nextPageToken with
          | none => rfl
          | some t =>
            dsimp only
            by_cases ht : t = ""
            · rw [if_pos ht, if_pos ht]
            · rw [if_neg ht, if_neg ht]
              exact ih acc1 (posts + 1)

/-- C10: passing `max_results = 0` to `search_issues` disables the cap
instead of returning an empty list — the truthiness guard makes `0`
behave exactly like `None`, so every issue from every page is returned
(second conjunct: a concrete two-page run returns all five issues
after 2 POSTs). -/
theorem search_issues_zero_cap_disables_cap :
    (∀ (α β : Type) (parse : α → Option β) (pages : List (JiraPage α)),
      search_issues parse pages (some 0) = search_issues parse pages none) ∧
    search_issues (fun (n : ℕ) => some n)
      [JiraPage.mk [1, 2] false (some "T"), JiraPage.mk [3, 4, 5] true none]
      (some 0) = some ([1, 2, 3, 4, 5], 2) := by
  constructor
  · intro α β parse pages
    exact searchLoop_zero_cap parse pages [] 0
  · decide

/-- Witness for C10: the equivalence applied to a concrete scripted
server. -/
theorem search_issues_zero_cap_disables_cap_witness :
    search_issues (fun (n : ℕ) => some n)
      [JiraPage.mk [1, 2] false (some "T"), JiraPage.mk [3, 4, 5] true none]
      (some 0) =
    search_issues (fun (n : ℕ) => some n)
      [JiraPage.mk [1, 2] false (some "T"), JiraPage.mk [3, 4, 5] true none]
      none :=
  search_issues_zero_cap_disables_cap.1 ℕ ℕ (fun n => some n)
    [JiraPage.mk [1, 2] false (some "T"), JiraPage.mk [3, 4, 5] true none]

/-- C4: caller-supplied Jira keys are validated against the strict
allow-list patterns before any query string is built or network call
made: the two injection attempts are rejected (issue-key validation
raises, project-key validation returns false), the legitimate keys pass,
and an invalid key makes `get_epic_children` fail before the JQL is
built or the scripted server is consulted. -/
theorem key_validation_allowlist :
    validate_issue_key "invalid-key" =
      Except.error "Invalid Jira issue key format: invalid-key" ∧
    validate_issue_key "PROJ\" OR 1=1 --" =
      Except.error "Invalid Jira issue key format: PROJ\" OR 1=1 --" ∧
    validate_project_key "invalid-key" = false ∧
    validate_project_key "PROJ\" OR 1=1 --" = false ∧
    validate_project_key "PROJ" = true ∧
    validate_project_key "INFRA" = true ∧
    (∀ (α β : Type) (parse : α → Option β) (pages : List (JiraPage α))
        (key e : String),
      validate_issue_key key = Except.error e →
      get_epic_children parse pages key = Except.error e) := by
  refine ⟨by decide, by decide, by decide, by decide, by decide, by decide, ?_⟩
  intro α β parse pages key e hv
  rw [get_epic_children, hv]

/-- Witness for C4: the structural conjunct applied to the concrete
rejected key. -/
theorem key_validation_allowlist_witness :
    get_epic_children (fun (n : ℕ) => some n) ([] : List (JiraPage ℕ))
      "invalid-key" =
      Except.error "Invalid Jira issue key format: invalid-key" :=
  key_validation_allowlist.2.2.2.2.2.2 ℕ ℕ (fun n => some n) []
    "invalid-key" "Invalid Jira issue key format: invalid-key" (by decide)

/-! ## Supporting lemmas about the request executors -/

/-- GitHub 403 with an (implicitly or explicitly) zero
`X-RateLimit-Remaining` header: the rate-limited case. -/
def is403Zero {α : Type} (r : GHResponse α) : Prop :=
  r.status = 403 ∧ r.remaining.getD "0" = "0"

/-- Wait applied on a rate-limited GitHub response at clock time `now`:
`min(max(reset - now, 1), 60)`. -/
def ghRateWait {α : Type} (r : GHResponse α) (now : ℤ) : ℤ :=
  min (max (r.reset.getD 0 - now) 1) 60

/-- A 4xx response that no GitHub-specific branch handles: every 4xx
other than 403-with-zero-remaining (including 403 with remaining quota
and 429, which the GitHub executor does not treat specially). -/
def ghUnhandled4xx {α : Type} (r : GHResponse α) : Prop :=
  400 ≤ r.status ∧ r.status < 500 ∧ ¬ is403Zero r

theorem ghLoop_step_403zero {α : Type} (clock : ℕ → ℤ) (attempt : ℕ)
    (r : GHResponse α) (rest : List (GHResponse α)) (calls : ℕ)
    (sleeps : List ℤ) (hA : attempt < MAX_RETRIES) (hr : is403Zero r) :
    ghLoop clock attempt (r :: rest) calls sleeps =
      ghLoop clock (attempt + 1) rest (calls + 1)
        (sleeps ++ [ghRateWait r (clock attempt)]) := by
  rw [ghLoop]
  rw [if_neg (by omega)]
  rw [if_pos (show r.status = 403 ∧ r.remaining.getD "0" = "0" from hr)]
  rfl

theorem ghLoop_step_unhandled4xx {α : Type} (clock : ℕ → ℤ) (attempt : ℕ)
    (r : GHResponse α) (rest : List (GHResponse α)) (calls : ℕ)
    (sleeps : List ℤ) (hA : attempt < MAX_RETRIES - 1) (hr : ghUnhandled4xx r) :
    ghLoop clock attempt (r :: rest) calls sleeps =
      ghLoop clock (attempt + 1) rest (calls + 1)
        (sleeps ++ [RETRY_DELAY * 2 ^ attempt]) := by
  have hMR : MAX_RETRIES = 3 := rfl
  rw [ghLoop]
  rw [if_neg (by omega)]
  rw [if_neg (show ¬(r.status = 403 ∧ r.remaining.getD "0" = "0") from hr.2.2)]
  rw [if_neg (fun h => absurd h.1 (by have h5 := hr.2.1; omega))]
  rw [if_pos hr.1, if_pos hA]

theorem ghLoop_last_unhandled4xx {α : Type} (clock : ℕ → ℤ) (attempt : ℕ)
    (r : GHResponse α) (rest : List (GHResponse α)) (calls : ℕ)
    (sleeps : List ℤ) (hA1 : attempt < MAX_RETRIES)
    (hA2 : ¬ attempt < MAX_RETRIES - 1) (hr : ghUnhandled4xx r) :
    ghLoop clock attempt (r :: rest) calls sleeps =
      some (ReqOutcome.httpError r.status (r.body.take 1000), calls + 1, sleeps) := by
  have hMR : MAX_RETRIES = 3 := rfl
  rw [ghLoop]
  rw [if_neg (by omega)]
  rw [if_neg (show ¬(r.status = 403 ∧ r.remaining.getD "0" = "0") from hr.2.2)]
  rw [if_neg (fun h => absurd h.1 (by have h5 := hr.2.1; omega))]
  rw [if_pos hr.1, if_neg hA2]

theorem ghLoop_ok {α : Type} (clock : ℕ → ℤ) (attempt : ℕ)
    (r : GHResponse α) (rest : List (GHResponse α)) (calls : ℕ)
    (sleeps : List ℤ) (d : α) (hA : attempt < MAX_RETRIES)
    (hs : r.status < 400) (hj : r.json = some d) :
    ghLoop clock attempt (r :: rest) calls sleeps =
      some (ReqOutcome.ok d, calls + 1, sleeps) := by
  rw [ghLoop]
  rw [if_neg (by omega)]
  rw [if_neg (fun h => by have h1 := h.1; omega)]
  rw [if_neg (fun h => by have h1 := h.1; omega)]
  rw [if_neg (by omega)]
  rw [hj]

theorem ghLoop_step_invalidJson {α : Type} (clock : ℕ → ℤ) (attempt : ℕ)
    (r : GHResponse α) (rest : List (GHResponse α)) (calls : ℕ)
    (sleeps : List ℤ) (hA : attempt < MAX_RETRIES - 1)
    (hs : r.status < 400) (hj : r.json = none) :
    ghLoop clock attempt (r :: rest) calls sleeps =
      ghLoop clock (attempt + 1) rest (calls + 1)
        (sleeps ++ [RETRY_DELAY * 2 ^ attempt]) := by
  have hMR : MAX_RETRIES = 3 := rfl
  rw [ghLoop]
  rw [if_neg (by omega)]
  rw [if_neg (fun h => by have h1 := h.1; omega)]
  rw [if_neg (fun h => by have h1 := h.1; omega)]
  rw [if_neg (by omega)]
  rw [hj]
  exact if_pos hA

theorem ghLoop_last_invalidJson {α : Type} (clock : ℕ → ℤ) (attempt : ℕ)
    (r : GHResponse α) (rest : List (GHResponse α)) (calls : ℕ)
    (sleeps : List ℤ) (hA1 : attempt < MAX_RETRIES)
    (hA2 : ¬ attempt < MAX_RETRIES - 1) (hs : r.status < 400)
    (hj : r.json = none) :
    ghLoop clock attempt (r :: rest) calls sleeps =
      some (ReqOutcome.invalidJson (r.body.take 200), calls + 1, sleeps) := by
  have hMR : MAX_RETRIES = 3 := rfl
  rw [ghLoop]
  rw [if_neg (by omega)]
  rw [if_neg (fun h => by have h1 := h.1; omega)]
  rw [if_neg (fun h => by have h1 := h.1; omega)]
  rw [if_neg (by omega)]
  rw [hj]
  exact if_neg hA2

theorem ghLoop_exhausted {α : Type} (clock : ℕ → ℤ) (attempt : ℕ)
    (resps : List (GHResponse α)) (calls : ℕ) (sleeps : List ℤ)
    (hA : MAX_RETRIES ≤ attempt) :
    ghLoop clock attempt resps calls sleeps =
      some (ReqOutcome.exhausted, calls, sleeps) := by
  rw [ghLoop.eq_def]
  dsimp only
  rw [if_pos hA]

theorem jiraLoop_step_429 {α : Type} (attempt : ℕ) (r : AtlResponse α)
    (rest : List (AtlResponse α)) (calls : ℕ) (sleeps : List ℤ)
    (hA : attempt < MAX_RETRIES - 1) (hr : r.status = 429) :
    jiraLoop attempt (r :: rest) calls sleeps =
      jiraLoop (attempt + 1) rest (calls + 1) (sleeps ++ [retryAfterWait r]) := by
  have hMR : MAX_RETRIES = 3 := rfl
  rw [jiraLoop]
  rw [if_neg (by omega)]
  rw [if_pos (And.intro hr hA)]

theorem jiraLoop_last_429 {α : Type} (attempt : ℕ) (r : AtlResponse α)
    (rest : List (AtlResponse α)) (calls : ℕ) (sleeps : List ℤ)
    (hA1 : attempt < MAX_RETRIES) (hA2 : ¬ attempt < MAX_RETRIES - 1)
    (hr : r.status = 429) :
    jiraLoop attempt (r :: rest) calls sleeps =
      some (ReqOutcome.httpError r.status (r.body.take 1000), calls + 1, sleeps) := by
  have hMR : MAX_RETRIES = 3 := rfl
  rw [jiraLoop]
  rw [if_neg (by omega)]
  rw [if_neg (fun h => absurd h.2 hA2)]
  rw [if_neg (fun h => by have h1 := h.1; omega)]
  rw [if_pos (by omega), if_neg hA2]

theorem jiraLoop_ok {α : Type} (attempt : ℕ) (r : AtlResponse α)
    (rest : List (AtlResponse α)) (calls : ℕ) (sleeps : List ℤ) (d : α)
    (hA : attempt < MAX_RETRIES) (hs : r.status < 400) (hj : r.json = some d) :
    jiraLoop attempt (r :: rest) calls sleeps =
      some (ReqOutcome.ok d, calls + 1, sleeps) := by
  rw [jiraLoop]
  rw [if_neg (by omega)]
  rw [if_neg (fun h => by have h1 := h.1; omega)]
  rw [if_neg (fun h => by have h1 := h.1; omega)]
  rw [if_neg (by omega)]
  rw [hj]

theorem confluenceLoop_step_429 {α : Type} (attempt : ℕ) (r : AtlResponse α)
    (rest : List (AtlResponse α)) (calls : ℕ) (sleeps : List ℤ)
    (hA : attempt < MAX_RETRIES) (hr : r.status = 429) :
    confluenceLoop attempt (r :: rest) calls sleeps =
      confluenceLoop (attempt + 1) rest (calls + 1) (sleeps ++ [retryAfterWait r]) := by
  rw [confluenceLoop]
  rw [if_neg (by omega)]
  rw [if_pos hr]

theorem confluenceLoop_ok {α : Type} (attempt : ℕ) (r : AtlResponse α)
    (rest : List (AtlResponse α)) (calls : ℕ) (sleeps : List ℤ) (d : α)
    (hA : attempt < MAX_RETRIES) (hs : r.status < 400) (hj : r.json = some d) :
    confluenceLoop attempt (r :: rest) calls sleeps =
      some (ReqOutcome.ok d, calls + 1, sleeps) := by
  rw [confluenceLoop]
  rw [if_neg (by omega)]
  rw [if_neg (by omega)]
  rw [if_neg (fun h => by have h1 := h.1; omega)]
  rw [if_neg (by omega)]
  rw [hj]

theorem confluenceLoop_exhausted {α : Type} (attempt : ℕ)
    (resps : List (AtlResponse α)) (calls : ℕ) (sleeps : List ℤ)
    (hA : MAX_RETRIES ≤ attempt) :
    confluenceLoop attempt resps calls sleeps =
      some (ReqOutcome.exhausted, calls, sleeps) := by
  rw [confluenceLoop.eq_def]
  dsimp only
  rw [if_pos hA]

/-- C1 counterexample: a server scripted to answer 404 then 200. The
claim says the 404 raises immediately with no further attempts, but the
executor catches its own `HTTPError` in the generic
`except RequestException` handler, sleeps the 1-second backoff, issues a
second request, and returns the 200 body: the run is
`(ok 7, 2 calls, [1])`, not a 1-call failure. -/
theorem gh_4xx_immediate_raise_counterexample :
    gh_request (fun _ => 0)
      [GHResponse.mk 404 none none "Not Found".toList none,
       GHResponse.mk 200 none none [] (some 7)] =
      some (ReqOutcome.ok 7, 2, [1]) ∧
    (some (ReqOutcome.ok 7, 2, ([1] : List ℤ)) : Option (ReqOutcome ℕ × ℕ × List ℤ)) ≠
      some (ReqOutcome.httpError 404 ("Not Found".toList.take 1000), 1, []) := by
  constructor
  · decide
  · decide

/-- C1 (amended): an HTTP 4xx other than the handled 403-with-zero-quota
case (including 403 with nonzero remaining quota) raises an `HTTPError`
carrying at most 1000 characters of the response body, but the raise is
caught by the executor's own generic `RequestException` handler: on
non-final attempts it sleeps the exponential backoff (1s, 2s) and
retries, so the failure — still carrying the ≤ 1000-character snippet —
is surfaced only when the 4xx occurs on the final of the 3 attempts, and
an intervening success makes the call succeed. -/
theorem gh_unhandled_4xx_retried_then_surfaced :
    (∀ (α : Type) (clock : ℕ → ℤ) (a b : GHResponse α) (d : α),
      ghUnhandled4xx a → b.status < 400 → b.json = some d →
      gh_request clock [a, b] = some (ReqOutcome.ok d, 2, [1])) ∧
    (∀ (α : Type) (clock : ℕ → ℤ) (a b c : GHResponse α),
      ghUnhandled4xx a → ghUnhandled4xx b → ghUnhandled4xx c →
      gh_request clock [a, b, c] =
        some (ReqOutcome.httpError c.status (c.body.take 1000), 3, [1, 2]) ∧
      (c.body.take 1000).length ≤ 1000) := by
  constructor
  · intro α clock a b d ha hb hj
    rw [gh_request,
      ghLoop_step_unhandled4xx clock 0 a [b] 0 [] (by norm_num [MAX_RETRIES]) ha]
    rw [ghLoop_ok clock (0 + 1) b [] (0 + 1) ([] ++ [RETRY_DELAY * 2 ^ 0]) d
      (by norm_num [MAX_RETRIES]) hb hj]
    norm_num [RETRY_DELAY]
  · intro α clock a b c ha hb hc
    constructor
    · rw [gh_request,
        ghLoop_step_unhandled4xx clock 0 a [b, c] 0 [] (by norm_num [MAX_RETRIES]) ha]
      rw [ghLoop_step_unhandled4xx clock (0 + 1) b [c] (0 + 1)
        ([] ++ [RETRY_DELAY * 2 ^ 0]) (by norm_num [MAX_RETRIES]) hb]
      rw [ghLoop_last_unhandled4xx clock (0 + 1 + 1) c [] (0 + 1 + 1)
        ([] ++ [RETRY_DELAY * 2 ^ 0] ++ [RETRY_DELAY * 2 ^ (0 + 1)])
        (by norm_num [MAX_RETRIES]) (by norm_num [MAX_RETRIES]) hc]
      norm_num [RETRY_DELAY]
    · simp only [List.length_take]
      omega

/-- Witness for C1: the amended theorem applied to concrete 403 (with
remaining quota), 404 and 422 responses. -/
theorem gh_unhandled_4xx_retried_then_surfaced_witness :
    gh_request (fun _ => 0)
      [GHResponse.mk 403 (some "42") none "forbidden".toList (none : Option ℕ),
       GHResponse.mk 404 none none "nf".toList none,
       GHResponse.mk 422 none none "bad".toList none] =
      some (ReqOutcome.httpError 422 ("bad".toList.take 1000), 3, [1, 2]) :=
  (gh_unhandled_4xx_retried_then_surfaced.2 ℕ (fun _ => 0)
    (GHResponse.mk 403 (some "42") none "forbidden".toList none)
    (GHResponse.mk 404 none none "nf".toList none)
    (GHResponse.mk 422 none none "bad".toList none)
    (by refine ⟨by norm_num, by norm_num, ?_⟩
        intro h
        simp [is403Zero] at h)
    (by refine ⟨by norm_num, by norm_num, ?_⟩
        intro h
        simp [is403Zero] at h)
    (by refine ⟨by norm_num, by norm_num, ?_⟩
        intro h
        simp [is403Zero] at h)).1

/-- C2 counterexample: a success-status response whose body fails JSON
parsing is not surfaced immediately: the raised `RequestException` is
caught by the executor's own generic retry handler, which sleeps the
1-second backoff and retries, and the second (well-formed) response is
returned: the run is `(ok 5, 2 calls, [1])`, not a 1-call failure. -/
theorem gh_invalid_json_immediate_counterexample :
    gh_request (fun _ => 0)
      [GHResponse.mk 200 none none "not json".toList none,
       GHResponse.mk 200 none none [] (some 5)] =
      some (ReqOutcome.ok 5, 2, [1]) ∧
    (some (ReqOutcome.ok 5, 2, ([1] : List ℤ)) : Option (ReqOutcome ℕ × ℕ × List ℤ)) ≠
      some (ReqOutcome.invalidJson ("not json".toList.take 200), 1, []) :=
  ⟨by decide, by decide⟩

/-- C2 (amended): invalid JSON on a success-status response raises a
failure distinct from an HTTP-status error and carrying a truncated
(200-character) body snippet, but it is treated like a transient error:
the executor retries with exponential backoff, so the invalid-JSON
failure is surfaced only when it occurs on the final of the 3 attempts,
and an intervening well-formed response makes the call succeed. -/
theorem gh_invalid_json_retried_then_surfaced :
    (∀ (α : Type) (clock : ℕ → ℤ) (a b : GHResponse α) (d : α),
      a.status < 400 → a.json = none → b.status < 400 → b.json = some d →
      gh_request clock [a, b] = some (ReqOutcome.ok d, 2, [1])) ∧
    (∀ (α : Type) (clock : ℕ → ℤ) (a b c : GHResponse α),
      a.status < 400 → a.json = none → b.status < 400 → b.json = none →
      c.status < 400 → c.json = none →
      gh_request clock [a, b, c] =
        some (ReqOutcome.invalidJson (c.body.take 200), 3, [1, 2]) ∧
      (c.body.take 200).length ≤ 200 ∧
      (∀ (s : ℕ) (e : List Char),
        (ReqOutcome.invalidJson (c.body.take 200) : ReqOutcome α) ≠
          ReqOutcome.httpError s e)) := by
  constructor
  · intro α clock a b d ha hja hb hjb
    rw [gh_request,
      ghLoop_step_invalidJson clock 0 a [b] 0 [] (by norm_num [MAX_RETRIES]) ha hja]
    rw [ghLoop_ok clock (0 + 1) b [] (0 + 1) ([] ++ [RETRY_DELAY * 2 ^ 0]) d
      (by norm_num [MAX_RETRIES]) hb hjb]
    norm_num [RETRY_DELAY]
  · intro α clock a b c ha hja hb hjb hc hjc
    refine ⟨?_, ?_, ?_⟩
    · rw [gh_request,
        ghLoop_step_invalidJson clock 0 a [b, c] 0 [] (by norm_num [MAX_RETRIES]) ha hja]
      rw [ghLoop_step_invalidJson clock (0 + 1) b [c] (0 + 1)
        ([] ++ [RETRY_DELAY * 2 ^ 0]) (by norm_num [MAX_RETRIES]) hb hjb]
      rw [ghLoop_last_invalidJson clock (0 + 1 + 1) c [] (0 + 1 + 1)
        ([] ++ [RETRY_DELAY * 2 ^ 0] ++ [RETRY_DELAY * 2 ^ (0 + 1)])
        (by norm_num [MAX_RETRIES]) (by norm_num [MAX_RETRIES]) hc hjc]
      norm_num [RETRY_DELAY]
    · simp only [List.length_take]
      omega
    · intro s e
      simp

/-- Witness for C2: the amended theorem applied to concrete scripted
responses. -/
theorem gh_invalid_json_retried_then_surfaced_witness :
    gh_request (fun _ => 0)
      [GHResponse.mk 200 none none "oops".toList (none : Option ℕ),
       GHResponse.mk 200 none none [] (some 5)] =
      some (ReqOutcome.ok 5, 2, [1]) :=
  gh_invalid_json_retried_then_surfaced.1 ℕ (fun _ => 0)
    (GHResponse.mk 200 none none "oops".toList none)
    (GHResponse.mk 200 none none [] (some 5)) 5
    (by norm_num) rfl (by norm_num) rfl

/-- C9 counterexample: a server answering 403-with-zero-remaining on
every attempt, with a reset timestamp 100 seconds ahead of the clock.
The executor issues exactly 3 requests and sleeps the clamped 60 seconds
after each of them — including the final one, after which it raises the
retries-exhausted failure instead of retrying, contradicting the claim
that every such response is followed by a retry. -/
theorem gh_rate_limit_retry_counterexample :
    gh_request (fun _ => 900)
      [GHResponse.mk 403 (some "0") (some 1000) [] none,
       GHResponse.mk 403 (some "0") (some 1000) [] none,
       GHResponse.mk 403 (some "0") (some 1000) [] (none : Option ℕ)] =
      some (ReqOutcome.exhausted, 3, [60, 60, 60]) ∧
    ghRateWait (GHResponse.mk 403 (some "0") (some 1000) [] (none : Option ℕ)) 900 = 60 ∧
    (1000 : ℤ) - 900 = 100 :=
  ⟨by decide, by decide, by decide⟩

/-- C9 (amended): every GitHub 403 response with a zero
`X-RateLimit-Remaining` makes the executor sleep
`min(max(reset - now, 1), 60)` seconds — at most 60 regardless of a
larger reset delta — instead of the exponential backoff; it then retries
on every attempt before the last, but a rate-limited final attempt
sleeps and then fails with the retries-exhausted error rather than
retrying. -/
theorem gh_rate_limit_wait_clamped :
    (∀ (α : Type) (clock : ℕ → ℤ) (g b : GHResponse α) (d : α),
      is403Zero g → b.status < 400 → b.json = some d →
      gh_request clock [g, b] = some (ReqOutcome.ok d, 2, [ghRateWait g (clock 0)])) ∧
    (∀ (α : Type) (clock : ℕ → ℤ) (g1 g2 g3 : GHResponse α),
      is403Zero g1 → is403Zero g2 → is403Zero g3 →
      gh_request clock [g1, g2, g3] =
        some (ReqOutcome.exhausted, 3,
          [ghRateWait g1 (clock 0), ghRateWait g2 (clock 1), ghRateWait g3 (clock 2)])) ∧
    (∀ (α : Type) (g : GHResponse α) (now : ℤ), ghRateWait g now ≤ 60) := by
  refine ⟨?_, ?_, ?_⟩
  · intro α clock g b d hg hb hj
    rw [gh_request,
      ghLoop_step_403zero clock 0 g [b] 0 [] (by norm_num [MAX_RETRIES]) hg]
    rw [ghLoop_ok clock (0 + 1) b [] (0 + 1) ([] ++ [ghRateWait g (clock 0)]) d
      (by norm_num [MAX_RETRIES]) hb hj]
    norm_num
  · intro α clock g1 g2 g3 h1 h2 h3
    rw [gh_request,
      ghLoop_step_403zero clock 0 g1 [g2, g3] 0 [] (by norm_num [MAX_RETRIES]) h1]
    rw [ghLoop_step_403zero clock (0 + 1) g2 [g3] (0 + 1)
      ([] ++ [ghRateWait g1 (clock 0)]) (by norm_num [MAX_RETRIES]) h2]
    rw [ghLoop_step_403zero clock (0 + 1 + 1) g3 [] (0 + 1 + 1)
      ([] ++ [ghRateWait g1 (clock 0)] ++ [ghRateWait g2 (clock (0 + 1))])
      (by norm_num [MAX_RETRIES]) h3]
    rw [ghLoop_exhausted clock (0 + 1 + 1 + 1) [] (0 + 1 + 1 + 1)
      ([] ++ [ghRateWait g1 (clock 0)] ++ [ghRateWait g2 (clock (0 + 1))] ++
        [ghRateWait g3 (clock (0 + 1 + 1))]) (by norm_num [MAX_RETRIES])]
    norm_num
  · intro α g now
    exact min_le_right _ _

/-- Witness for C9: the amended theorem applied to a concrete
rate-limited response followed by a success. -/
theorem gh_rate_limit_wait_clamped_witness :
    gh_request (fun _ => 900)
      [GHResponse.mk 403 (some "0") (some 1000) [] (none : Option ℕ),
       GHResponse.mk 200 none none [] (some 9)] =
      some (ReqOutcome.ok 9, 2,
        [ghRateWait (GHResponse.mk 403 (some "0") (some 1000) [] (none : Option ℕ)) 900]) :=
  gh_rate_limit_wait_clamped.1 ℕ (fun _ => 900)
    (GHResponse.mk 403 (some "0") (some 1000) [] none)
    (GHResponse.mk 200 none none [] (some 9)) 9
    ⟨rfl, rfl⟩ (by norm_num) rfl

/-- C3 counterexample: the Confluence executor given a 429 with
`Retry-After: 5` on all three attempts sleeps 5 seconds after every
attempt — the last included — and then raises the retries-exhausted
failure; it does not fall through to the generic 4xx handling (which
would surface the 429 `HTTPError` after only two sleeps) as the claim
states. -/
theorem confluence_429_last_attempt_counterexample :
    confluence_request
      [AtlResponse.mk 429 (some 5) "limited".toList none,
       AtlResponse.mk 429 (some 5) "limited".toList none,
       AtlResponse.mk 429 (some 5) "limited".toList (none : Option ℕ)] =
      some (ReqOutcome.exhausted, 3, [5, 5, 5]) ∧
    (some (ReqOutcome.exhausted, 3, ([5, 5, 5] : List ℤ)) :
        Option (ReqOutcome ℕ × ℕ × List ℤ)) ≠
      some (ReqOutcome.httpError 429 ("limited".toList.take 1000), 3, [5, 5]) :=
  ⟨by decide, by decide⟩

/-- C3 (amended): a 429 is retried after waiting the server-supplied
`Retry-After` seconds, defaulting to the 1-second backoff base when the
header is absent or malformed. The Jira executor does so on all attempts
except the last of the 3, on which the 429 falls through to the generic
4xx handling and surfaces as an `HTTPError`; the Confluence executor has
no such last-attempt guard: it waits and retries on every attempt,
including the last, after which the retries-exhausted failure is raised. -/
theorem atl_429_retry_after_handling :
    (∀ (α : Type) (r1 r2 r3 : AtlResponse α),
      r1.status = 429 → r2.status = 429 → r3.status = 429 →
      jira_request [r1, r2, r3] =
        some (ReqOutcome.httpError r3.status (r3.body.take 1000), 3,
          [retryAfterWait r1, retryAfterWait r2])) ∧
    (∀ (α : Type) (r b : AtlResponse α) (d : α),
      r.status = 429 → b.status < 400 → b.json = some d →
      jira_request [r, b] = some (ReqOutcome.ok d, 2, [retryAfterWait r])) ∧
    (∀ (α : Type) (r1 r2 r3 : AtlResponse α),
      r1.status = 429 → r2.status = 429 → r3.status = 429 →
      confluence_request [r1, r2, r3] =
        some (ReqOutcome.exhausted, 3,
          [retryAfterWait r1, retryAfterWait r2, retryAfterWait r3])) ∧
    (∀ (α : Type) (r b : AtlResponse α) (d : α),
      r.status = 429 → b.status < 400 → b.json = some d →
      confluence_request [r, b] = some (ReqOutcome.ok d, 2, [retryAfterWait r])) ∧
    (∀ (α : Type) (r : AtlResponse α), r.retryAfter = none →
      retryAfterWait r = RETRY_DELAY) := by
  refine ⟨?_, ?_, ?_, ?_, ?_⟩
  · intro α r1 r2 r3 h1 h2 h3
    rw [jira_request,
      jiraLoop_step_429 0 r1 [r2, r3] 0 [] (by norm_num [MAX_RETRIES]) h1]
    rw [jiraLoop_step_429 (0 + 1) r2 [r3] (0 + 1) ([] ++ [retryAfterWait r1])
      (by norm_num [MAX_RETRIES]) h2]
    rw [jiraLoop_last_429 (0 + 1 + 1) r3 [] (0 + 1 + 1)
      ([] ++ [retryAfterWait r1] ++ [retryAfterWait r2])
      (by norm_num [MAX_RETRIES]) (by norm_num [MAX_RETRIES]) h3]
    norm_num
  · intro α r b d hr hb hj
    rw [jira_request,
      jiraLoop_step_429 0 r [b] 0 [] (by norm_num [MAX_RETRIES]) hr]
    rw [jiraLoop_ok (0 + 1) b [] (0 + 1) ([] ++ [retryAfterWait r]) d
      (by norm_num [MAX_RETRIES]) hb hj]
    norm_num
  · intro α r1 r2 r3 h1 h2 h3
    rw [confluence_request,
      confluenceLoop_step_429 0 r1 [r2, r3] 0 [] (by norm_num [MAX_RETRIES]) h1]
    rw [confluenceLoop_step_429 (0 + 1) r2 [r3] (0 + 1) ([] ++ [retryAfterWait r1])
      (by norm_num [MAX_RETRIES]) h2]
    rw [confluenceLoop_step_429 (0 + 1 + 1) r3 [] (0 + 1 + 1)
      ([] ++ [retryAfterWait r1] ++ [retryAfterWait r2])
      (by norm_num [MAX_RETRIES]) h3]
    rw [confluenceLoop_exhausted (0 + 1 + 1 + 1) [] (0 + 1 + 1 + 1)
      ([] ++ [retryAfterWait r1] ++ [retryAfterWait r2] ++ [retryAfterWait r3])
      (by norm_num [MAX_RETRIES])]
    norm_num
  · intro α r b d hr hb hj
    rw [confluence_request,
      confluenceLoop_step_429 0 r [b] 0 [] (by norm_num [MAX_RETRIES]) hr]
    rw [confluenceLoop_ok (0 + 1) b [] (0 + 1) ([] ++ [retryAfterWait r]) d
      (by norm_num [MAX_RETRIES]) hb hj]
    norm_num
  · intro α r hr
    rw [retryAfterWait, hr]
    rfl

/-- Witness for C3: the amended theorem applied to concrete scripted
responses (429 with a parsed `Retry-After` of 0, then success). -/
theorem atl_429_retry_after_handling_witness :
    jira_request
      [AtlResponse.mk 429 (some 0) [] (none : Option ℕ),
       AtlResponse.mk 200 none [] (some 1)] =
      some (ReqOutcome.ok 1, 2,
        [retryAfterWait (AtlResponse.mk 429 (some 0) [] (none : Option ℕ))]) :=
  atl_429_retry_after_handling.2.1 ℕ
    (AtlResponse.mk 429 (some 0) [] none)
    (AtlResponse.mk 200 none [] (some 1)) 1
    rfl (by norm_num) rfl


/-! ## Supporting lemmas about the batch fetcher -/

theorem dictGet_filter_ne {κ α : Type} [DecidableEq κ] (m : List (κ × α))
    (key k : κ) (h : k ≠ key) :
    dictGet (m.filter (fun p => decide (p.1 ≠ key))) k = dictGet m k := by
  induction m with
  | nil => rfl
  | cons e rest ih =>
    by_cases he : e.1 = key
    · rw [List.filter_cons_of_neg (by simp [he])]
      rw [dictGet, if_neg (by rw [he]; exact fun hh => h hh.symm)]
      exact ih
    · rw [List.filter_cons_of_pos (by simp [he])]
      by_cases hek : e.1 = k
      · rw [dictGet, if_pos hek, dictGet, if_pos hek]
      · rw [dictGet, if_neg hek, dictGet, if_neg hek]
        exact ih

theorem dictGet_dictSet {κ α : Type} [DecidableEq κ] (m : List (κ × α))
    (key k : κ) (v : α) :
    dictGet (dictSet m key v) k = if k = key then some v else dictGet m k := by
  rw [dictSet, dictGet]
  by_cases h : k = key
  · rw [if_pos h.symm, if_pos h]
  · rw [if_neg (fun hh => h hh.symm), if_neg h]
    exact dictGet_filter_ne m key k h

theorem batch_lookup_isSome (fetch : PullRequest → Option PRStats) :
    ∀ (l : List PullRequest) (acc : List ((String × ℕ) × PRStats))
      (k : String × ℕ),
      (dictGet (l.foldl (batchStep fetch) acc) k).isSome = true ↔
        (dictGet acc k).isSome = true ∨
          ∃ pr ∈ l, prKey pr = k ∧ (fetch pr).isSome = true := by
  intro l
  induction l with
  | nil =>
    intro acc k
    simp
  | cons pr rest ih =>
    intro acc k
    rw [List.foldl_cons, ih]
    have hstep : (dictGet (batchStep fetch acc pr) k).isSome = true ↔
        ((dictGet acc k).isSome = true ∨
          (prKey pr = k ∧ (fetch pr).isSome = true)) := by
      cases hf : fetch pr with
      | none => simp [batchStep, hf]
      | some s =>
        simp only [batchStep, hf, dictGet_dictSet]
        by_cases hk : k = prKey pr
        · simp [hk]
        · rw [if_neg hk]
          constructor
          · exact fun h => Or.inl h
          · rintro (h | ⟨hkey, hsome2⟩)
            · exact h
            · exact absurd hkey (fun hh => hk hh.symm)
    rw [hstep]
    simp only [List.mem_cons]
    constructor
    · rintro ((h | ⟨hkey, hsome⟩) | ⟨p, hp, hkey, hsome⟩)
      · exact Or.inl h
      · exact Or.inr ⟨pr, Or.inl rfl, hkey, hsome⟩
      · exact Or.inr ⟨p, Or.inr hp, hkey, hsome⟩
    · rintro (h | ⟨p, hp | hp, hkey, hsome⟩)
      · exact Or.inl (Or.inl h)
      · subst hp
        exact Or.inl (Or.inr ⟨hkey, hsome⟩)
      · exact Or.inr ⟨p, hp, hkey, hsome⟩

theorem batch_lookup_eq_some (fetch : PullRequest → Option PRStats) :
    ∀ (l : List PullRequest) (acc : List ((String × ℕ) × PRStats))
      (k : String × ℕ) (s : PRStats),
      dictGet (l.foldl (batchStep fetch) acc) k = some s →
        (∃ pr ∈ l, prKey pr = k ∧ fetch pr = some s) ∨ dictGet acc k = some s := by
  intro l
  induction l with
  | nil =>
    intro acc k s h
    exact Or.inr h
  | cons pr rest ih =>
    intro acc k s h
    rw [List.foldl_cons] at h
    rcases ih (batchStep fetch acc pr) k s h with ⟨p, hp, hkey, hsome⟩ | hacc
    · exact Or.inl ⟨p, List.mem_cons_of_mem _ hp, hkey, hsome⟩
    · cases hf : fetch pr with
      | none =>
        rw [batchStep, hf] at hacc
        exact Or.inr hacc
      | some st =>
        rw [batchStep, hf, dictGet_dictSet] at hacc
        by_cases hk : k = prKey pr
        · rw [if_pos hk] at hacc
          refine Or.inl ⟨pr, List.mem_cons_self _ _, hk.symm, ?_⟩
          rw [hf, hacc]
        · rw [if_neg hk] at hacc
          exact Or.inr hacc

/-- Concrete 5-item batch: PRs numbered 1..5 in repository "repo". -/
def samplePR (i : ℕ) : PullRequest :=
  PullRequest.mk i "title" "repo" "open" false 0 0 "" none none

/-- Concrete per-item fetch whose call for PR number 3 raises (returns
nothing); every other item succeeds. -/
def sampleFetch (pr : PullRequest) : Option PRStats :=
  if pr.number = 3 then none else some (PRStats.mk pr.number 0)

/-- C5: a batch fetch returns a mapping containing exactly the keys of
the items whose per-item fetch succeeded, whatever completion order the
pool delivers: a key is present iff some submitted item has that key and
a successful fetch, a present key always carries an actual fetched value
(never a null), and in particular 5 work items where item 3 raises yield
a mapping with exactly 4 keys, item 3's key absent. -/
theorem get_pr_stats_batch_partial_failure :
    (∀ (prs order : List PullRequest) (fetch : PullRequest → Option PRStats),
      order.Perm prs →
      ∀ k : String × ℕ,
        ((dictGet (get_pr_stats_batch order fetch) k).isSome = true ↔
          ∃ pr ∈ prs, prKey pr = k ∧ (fetch pr).isSome = true) ∧
        (∀ s, dictGet (get_pr_stats_batch order fetch) k = some s →
          ∃ pr ∈ prs, prKey pr = k ∧ fetch pr = some s)) ∧
    ((get_pr_stats_batch
        [samplePR 1, samplePR 2, samplePR 3, samplePR 4, samplePR 5]
        sampleFetch).length = 4 ∧
      dictGet (get_pr_stats_batch
        [samplePR 1, samplePR 2, samplePR 3, samplePR 4, samplePR 5]
        sampleFetch) ("repo", 3) = none ∧
      dictGet (get_pr_stats_batch
        [samplePR 1, samplePR 2, samplePR 3, samplePR 4, samplePR 5]
        sampleFetch) ("repo", 1) = some (PRStats.mk 1 0) ∧
      dictGet (get_pr_stats_batch
        [samplePR 1, samplePR 2, samplePR 3, samplePR 4, samplePR 5]
        sampleFetch) ("repo", 4) = some (PRStats.mk 4 0)) := by
  constructor
  · intro prs order fetch hperm k
    constructor
    · rw [get_pr_stats_batch, batch_lookup_isSome]
      simp only [dictGet, Option.isSome_none, Bool.false_eq_true, false_or]
      constructor
      · rintro ⟨pr, hpr, hrest⟩
        exact ⟨pr, hperm.mem_iff.1 hpr, hrest⟩
      · rintro ⟨pr, hpr, hrest⟩
        exact ⟨pr, hperm.mem_iff.2 hpr, hrest⟩
    · intro s hs
      rw [get_pr_stats_batch] at hs
      rcases batch_lookup_eq_some fetch order [] k s hs with ⟨pr, hpr, hrest⟩ | habs
      · exact ⟨pr, hperm.mem_iff.1 hpr, hrest⟩
      · simp [dictGet] at habs
  · refine ⟨by decide, by decide, by decide, by decide⟩

/-- Witness for C5: the key-membership characterization applied to the
concrete 5-item batch at item 3's key (absent) and item 1's key
(present). -/
theorem get_pr_stats_batch_partial_failure_witness :
    ((dictGet (get_pr_stats_batch
        [samplePR 1, samplePR 2, samplePR 3, samplePR 4, samplePR 5]
        sampleFetch) ("repo", 1)).isSome = true ↔
      ∃ pr ∈ [samplePR 1, samplePR 2, samplePR 3, samplePR 4, samplePR 5],
        prKey pr = ("repo", 1) ∧ (sampleFetch pr).isSome = true) :=
  ((get_pr_stats_batch_partial_failure.1
    [samplePR 1, samplePR 2, samplePR 3, samplePR 4, samplePR 5]
    [samplePR 1, samplePR 2, samplePR 3, samplePR 4, samplePR 5]
    sampleFetch (List.Perm.refl _) ("repo", 1)).1)


theorem consumePage_id_nocap {β : Type} (l : List β) :
    ∀ acc, consumePage (fun b => some b) none acc l = (acc ++ l, false) := by
  induction l with
  | nil => intro acc; simp [consumePage]
  | cons b rest ih =>
    intro acc
    simp [consumePage, capReached, ih, List.append_assoc]

theorem consumePage_id_cap {β : Type} (m : ℕ) (hm : m ≠ 0) (l : List β) :
    ∀ acc : List β, acc.length < m →
      consumePage (fun b => some b) (some m) acc l =
        if m ≤ acc.length + l.length then (acc ++ l.take (m - acc.length), true)
        else (acc ++ l, false) := by
  induction l with
  | nil =>
    intro acc hacc
    rw [if_neg (by simp only [List.length_nil]; omega)]
    simp [consumePage]
  | cons b rest ih =>
    intro acc hacc
    rw [consumePage]
    dsimp only
    by_cases hcap : m ≤ acc.length + 1
    · have hcr : capReached (some m) (acc ++ [b]).length = true := by
        simp only [capReached, List.length_append, List.length_singleton]
        rw [Bool.and_eq_true]
        exact ⟨decide_eq_true hm, decide_eq_true (by omega)⟩
      rw [if_pos hcr]
      rw [if_pos (by simp only [List.length_cons]; omega)]
      rw [show m - acc.length = 1 from by omega]
      simp
    · have hcr : capReached (some m) (acc ++ [b]).length = false := by
        simp only [capReached, List.length_append, List.length_singleton]
        rw [Bool.and_eq_false_iff]
        right
        exact decide_eq_false (by omega)
      rw [if_neg (by rw [hcr]; exact Bool.false_ne_true)]
      rw [ih (acc ++ [b]) (by simp only [List.length_append, List.length_singleton]; omega)]
      have hlen1 : (acc ++ [b]).length = acc.length + 1 := by simp
      by_cases hm2 : m ≤ acc.length + (b :: rest).length
      · have hm2b : m ≤ (acc ++ [b]).length + rest.length := by
          simp only [List.length_cons] at hm2
          rw [hlen1]
          omega
        rw [if_pos hm2b, if_pos hm2]
        rw [hlen1]
        rw [show m - acc.length = (m - (acc.length + 1)) + 1 from by omega]
        simp [List.append_assoc]
      · have hm2b : ¬ m ≤ (acc ++ [b]).length + rest.length := by
          simp only [List.length_cons] at hm2
          rw [hlen1]
          omega
        rw [if_neg hm2b, if_neg hm2]
        simp [List.append_assoc]

/-- C8: Jira cursor pagination with a caller-supplied cap. First
conjunct: when the first page already holds at least `max_results`
items, exactly `max_results` issues are returned and exactly one POST is
issued (the generator is abandoned before any further request).
Second conjunct: when the cap is absent or exceeds the first page and
the first response has `isLast = false` with a truthy `nextPageToken`,
a second POST is issued, the two pages' items are concatenated (then
truncated to any cap), and pagination stops because the second response
reports `isLast = true` or omits the token. -/
theorem jira_cursor_pagination_cap :
    (∀ (β : Type) (p : JiraPage β) (rest : List (JiraPage β)) (m : ℕ),
      m ≠ 0 → m ≤ p.issues.length →
      search_issues (fun b => some b) (p :: rest) (some m) =
        some (p.issues.take m, 1)) ∧
    (∀ (β : Type) (p1 p2 : JiraPage β) (cap : Option ℕ) (t : String),
      p1.isLast = false → p1.nextPageToken = some t → t ≠ "" →
      (p2.isLast = true ∨ p2.nextPageToken = none) →
      (cap = none ∨ ∃ m, cap = some m ∧ p1.issues.length < m) →
      search_issues (fun b => some b) [p1, p2] cap =
        some (truncCap cap (p1.issues ++ p2.issues), 2)) := by
  constructor
  · intro β p rest m hm hlen
    rw [search_issues, searchLoop]
    rw [consumePage_id_cap m hm p.issues [] (by simp only [List.length_nil]; omega)]
    rw [if_pos (by simp only [List.length_nil]; omega)]
    dsimp only
    simp
  · intro β p1 p2 cap t h1 htok ht hterm hcap
    have hstop : ∀ (acc : List β) (posts : ℕ),
        (∀ mm, cap = some mm → acc.length < mm) →
        (searchLoop (fun b => some b) cap [p2] acc posts =
            some (acc ++ p2.issues, posts + 1) ∧
          (∀ mm, cap = some mm → acc.length + p2.issues.length < mm)) ∨
        (∃ mm, cap = some mm ∧ mm ≤ acc.length + p2.issues.length ∧
          searchLoop (fun b => some b) cap [p2] acc posts =
            some (acc ++ p2.issues.take (mm - acc.length), posts + 1)) := by
      intro acc posts haccbound
      have hfinish : ∀ r : List β × ℕ,
          (match (r.1, false) with
            | (acc1, true) => some (acc1, r.2 + 1)
            | (acc1, false) =>
              if p2.isLast = true then some (acc1, r.2 + 1)
              else
                match p2.nextPageToken with
                | none => some (acc1, r.2 + 1)
                | some t2 =>
                  if t2 = "" then some (acc1, r.2 + 1)
                  else searchLoop (fun b => some b) cap [] acc1 (r.2 + 1)) =
            some (r.1, r.2 + 1) := by
        intro r
        dsimp only
        cases hL2 : p2.isLast with
        | true => rw [if_pos rfl]
        | false =>
          rw [if_neg (by simp)]
          have htok2 : p2.nextPageToken = none := by
            rcases hterm with h | h
            · rw [hL2] at h
              exact absurd h (by simp)
            · exact h
          rw [htok2]
      rcases hcap with rfl | ⟨m, rfl, hlen⟩
      · left
        refine ⟨?_, by intro mm hmm; cases hmm⟩
        rw [searchLoop, consumePage_id_nocap]
        exact hfinish (acc ++ p2.issues, posts)
      · have hm0 : m ≠ 0 := by omega
        have haccm : acc.length < m := haccbound m rfl
        rw [searchLoop, consumePage_id_cap m hm0 p2.issues acc haccm]
        by_cases hm2 : m ≤ acc.length + p2.issues.length
        · right
          refine ⟨m, rfl, hm2, ?_⟩
          rw [if_pos hm2]
        · left
          refine ⟨?_, ?_⟩
          · rw [if_neg hm2]
            exact hfinish (acc ++ p2.issues, posts)
          · intro mm hmm
            cases hmm
            omega
    rw [search_issues, searchLoop]
    have hfirst : consumePage (fun b => some b) cap [] p1.issues =
        (([] : List β) ++ p1.issues, false) := by
      rcases hcap with rfl | ⟨m, rfl, hlen⟩
      · exact consumePage_id_nocap p1.issues []
      · have hm0 : m ≠ 0 := by omega
        rw [consumePage_id_cap m hm0 p1.issues [] (by simp only [List.length_nil]; omega)]
        rw [if_neg (by simp only [List.length_nil]; omega)]
    rw [hfirst]
    dsimp only
    rw [if_neg (by rw [h1]; simp)]
    rw [htok]
    dsimp only
    rw [if_neg ht]
    have haccbound : ∀ mm, cap = some mm → (([] : List β) ++ p1.issues).length < mm := by
      intro mm hmm
      rcases hcap with rfl | ⟨m, hm, hlen⟩
      · cases hmm
      · rw [hm] at hmm
        cases hmm
        simp only [List.nil_append]
        exact hlen
    rcases hstop ([] ++ p1.issues) (0 + 1) haccbound with ⟨heq, hbound⟩ | ⟨mm, hmm, hm2, heq⟩
    · rw [heq]
      have htr : truncCap cap (p1.issues ++ p2.issues) = p1.issues ++ p2.issues := by
        rcases hcap with rfl | ⟨m, hm, hlen⟩
        · rfl
        · rw [hm, truncCap]
          apply List.take_of_length_le
          have := hbound m hm
          simp only [List.nil_append] at this
          simp only [List.length_append]
          omega
      rw [htr]
      simp
    · rw [heq, hmm, truncCap]
      rw [List.take_append_eq_append_take]
      have hlenp1 : p1.issues.length ≤ mm := by
        have := haccbound mm hmm
        simp only [List.nil_append] at this
        omega
      rw [List.take_of_length_le hlenp1]
      norm_num


/-- Witness for C8: a cap of 2 on a 3-item first page (one POST, two
issues), and an uncapped two-page run (two POSTs, all issues). -/
theorem jira_cursor_pagination_cap_witness :
    search_issues (fun (n : ℕ) => some n)
      [JiraPage.mk [1, 2, 3] true none] (some 2) = some ([1, 2], 1) ∧
    search_issues (fun (n : ℕ) => some n)
      [JiraPage.mk [1, 2] false (some "T"), JiraPage.mk [3] true none] none =
      some ([1, 2, 3], 2) :=
  ⟨jira_cursor_pagination_cap.1 ℕ (JiraPage.mk [1, 2, 3] true none) [] 2
      (by decide) (by decide),
   jira_cursor_pagination_cap.2 ℕ (JiraPage.mk [1, 2] false (some "T"))
      (JiraPage.mk [3] true none) none "T" rfl rfl (by decide)
      (Or.inl rfl) (Or.inl rfl)⟩


end PulseMCP
